import Mathlib

/-!
Verification of the capture-and-streaming core of `main.py`
(dual_screen_mirror): the MJPEG stream generator `mjpeg_stream`, the
window reconciler `keep_uxplay_windows_positioned`, the window locator
`macos_find_window_id` and the window capture `macos_capture_window_bgr`,
shallowly embedded in Lean.  Machine reals (Python floats used only for
wall-clock arithmetic) are modelled by `ℚ`; raw byte buffers by
`List Nat`; fallible OS calls by `Option`; a raised Python exception by
`Except.error`.
-/

namespace DualScreenMirror

/-! ### Configuration constants (main.py lines 41-46) -/

def AUTO_POSITION_WINDOWS : Bool := true

def TARGET_FPS : ℕ := 24

def JPEG_QUALITY : ℕ := 75

/-- `frame_delay = 1.0 / TARGET_FPS` (main.py line 436). -/
def frame_delay : ℚ := 1 / (TARGET_FPS : ℚ)

/-- The lookup throttle interval, `0.8` seconds (main.py line 445). -/
def lookupInterval : ℚ := 8 / 10

/-! ### Byte strings and MJPEG chunk framing (main.py lines 474-478, 556) -/

/-- A raw byte string, each entry one byte. -/
abbrev Bytes := List Nat

/-- ASCII bytes of a string literal. -/
def asciiBytes (s : String) : Bytes := s.toList.map Char.toNat

/-- The multipart boundary token used by both the chunk framing and the
response content type (`frame` in main.py lines 476 and 556). -/
def boundaryToken : String := "frame"

/-- The chunk framing of main.py lines 475-478:
`b"--frame\r\n" + b"Content-Type: image/jpeg\r\n\r\n" + data + b"\r\n"`. -/
def mjpegChunk (data : Bytes) : Bytes :=
  asciiBytes "--frame\x0d\x0a" ++
    asciiBytes "Content-Type: image/jpeg\x0d\x0a\x0d\x0a" ++ data ++
    asciiBytes "\x0d\x0a"

/-- The response mimetype of main.py lines 556 and 564. -/
def streamMimetype : String := "multipart/x-mixed-replace; boundary=frame"

/-! ### Frames

A captured frame: height, width, number of colour channels, and the flat
pixel buffer (row-major, channel-minor), as produced by the numpy /
OpenCV pipeline of main.py. -/

structure Frame where
  height : ℕ
  width : ℕ
  channels : ℕ
  pixels : Bytes
deriving Repr, DecidableEq

/-! ### Stream session state and per-tick environment (mjpeg_stream)

`mjpeg_stream` (main.py lines 428-479) keeps, per session, a cached
window id and the time of the last window lookup.  Each loop iteration
interacts with the outside world through: the current wall-clock time,
the result `macos_find_window_id` would return if called, the result
`macos_capture_window_bgr` would return for a given id, the fallback
region grab (already converted BGRA→BGR; `sct.grab` plus `cv2.cvtColor`,
lines 455-464, assumed to succeed), and the JPEG encoder
(`cv2.imencode`, lines 466-470). -/

structure StreamState where
  window_id : Option ℤ
  last_window_lookup : ℚ
deriving Repr, DecidableEq

/-- `window_id = None; last_window_lookup = 0.0` (main.py lines 437-438). -/
def initStreamState : StreamState := ⟨none, 0⟩

structure TickEnv where
  now : ℚ
  lookup : Option ℤ
  capture : ℤ → Option Frame
  regionFrame : Frame
  encode : Frame → Option Bytes

/-- Lines 444-447: if no cached id and at least 0.8 s have passed since
the last lookup, look the window up and stamp the lookup time. -/
def lookupStep (hasTitle : Bool) (st : StreamState) (env : TickEnv) :
    StreamState :=
  if hasTitle ∧ st.window_id = none ∧
      lookupInterval ≤ env.now - st.last_window_lookup then
    { window_id := env.lookup, last_window_lookup := env.now }
  else st

/-- Whether the guard of lines 443-445 fires, i.e. a window lookup is
actually issued this iteration. -/
def lookupFires (hasTitle : Bool) (st : StreamState) (env : TickEnv) :
    Prop :=
  hasTitle ∧ st.window_id = none ∧
    lookupInterval ≤ env.now - st.last_window_lookup

instance (hasTitle : Bool) (st : StreamState) (env : TickEnv) :
    Decidable (lookupFires hasTitle st env) := by
  unfold lookupFires; infer_instance

/-- Lines 449-452: if a window id is cached, attempt a window capture;
on failure discard the cached id.  Returns the window-captured frame (if
any) and the updated state. -/
def captureStep (hasTitle : Bool) (st : StreamState) (env : TickEnv) :
    Option Frame × StreamState :=
  if hasTitle then
    match st.window_id with
    | some wid =>
      match env.capture wid with
      | some f => (some f, st)
      | none => (none, { st with window_id := none })
    | none => (none, st)
  else (none, st)

/-- The frame used by one iteration (lines 441-464): the window-captured
frame when one was obtained, the fallback region grab otherwise. -/
def acquiredFrame (hasTitle : Bool) (st : StreamState) (env : TickEnv) :
    Frame :=
  ((captureStep hasTitle (lookupStep hasTitle st env) env).1).getD
    env.regionFrame

/-- Result of one loop iteration: next session state, the chunk yielded
(none when `cv2.imencode` failed and the iteration hit `continue`), and
the duration passed to `time.sleep` (line 479; the `continue` path skips
the sleep). -/
structure TickResult where
  state : StreamState
  chunk : Option Bytes
  sleep : ℚ
deriving Repr

/-- One iteration of the `while True` loop of `mjpeg_stream`
(main.py lines 440-479): lookup step, capture step, fallback grab,
encode, then either `continue` (no chunk, no sleep) or yield the framed
chunk and sleep `frame_delay`. -/
def streamTick (hasTitle : Bool) (st : StreamState) (env : TickEnv) :
    TickResult :=
  match env.encode (acquiredFrame hasTitle st env) with
  | none =>
      { state := (captureStep hasTitle (lookupStep hasTitle st env) env).2,
        chunk := none, sleep := 0 }
  | some data =>
      { state := (captureStep hasTitle (lookupStep hasTitle st env) env).2,
        chunk := some (mjpegChunk data), sleep := frame_delay }

/-- The session state after `n` iterations, the environments given as a
function of the iteration index. -/
def stateAt (hasTitle : Bool) (env : ℕ → TickEnv) : ℕ → StreamState
  | 0 => initStreamState
  | n + 1 => (streamTick hasTitle (stateAt hasTitle env n) (env n)).state

/-- The sleep duration the code issues after an emitted chunk, written as
a function of the elapsed per-tick encoding time for comparison with the
spec: the argument of `time.sleep` on line 479 is the constant
`frame_delay`, independent of any elapsed time. -/
def tickSleep (_elapsedEncodingTime : ℚ) : ℚ := frame_delay

/-- Modelled from the spec (§4.4): the pacing the spec prescribes,
`max(0, frameInterval - elapsedEncodingTime)` with
`frameInterval = 1/targetFps`; written for comparison with `tickSleep`. -/
def specSleep (elapsedEncodingTime : ℚ) : ℚ :=
  max 0 (frame_delay - elapsedEncodingTime)

/-! ### Window reconciler (`keep_uxplay_windows_positioned`,
main.py lines 334-351)

The loop keeps one boolean per source (`iphone_done`, `ipad_done`).
Each iteration first reads the stop event, then, for each source whose
flag is false, issues a `set_window_bounds` move attempt whose boolean
outcome becomes the new flag, and returns when both flags hold;
otherwise it sleeps `AUTO_POSITION_INTERVAL_SEC` and repeats. -/

inductive Source | iphone | ipad
deriving Repr, DecidableEq

structure ReconState where
  iphone_done : Bool
  ipad_done : Bool
deriving Repr, DecidableEq

/-- Per-iteration environment: the value of `stop_event.is_set()` at the
top of the iteration and the outcome of `set_window_bounds` for each
source, were it to be called. -/
structure ReconEnv where
  stopSet : Bool
  iphoneMove : Bool
  ipadMove : Bool
deriving Repr, DecidableEq

/-- The body of one loop iteration (lines 343-346): the move attempts it
issues, in order, and the updated flags. -/
def reconIter (st : ReconState) (env : ReconEnv) :
    List Source × ReconState :=
  let movesA : List Source := if st.iphone_done then [] else [Source.iphone]
  let a : Bool := if st.iphone_done then st.iphone_done else env.iphoneMove
  let movesB : List Source := if st.ipad_done then [] else [Source.ipad]
  let b : Bool := if st.ipad_done then st.ipad_done else env.ipadMove
  (movesA ++ movesB, ⟨a, b⟩)

/-- Running the `while` loop (lines 342-351) against a finite list of
per-iteration environments.  Returns every move attempt issued, in
order, and whether the loop returned before the environments ran out
(`true` = the function returned, by stop event or by both flags). -/
def reconRun (st : ReconState) : List ReconEnv → List Source × Bool
  | [] => ([], false)
  | env :: rest =>
    if env.stopSet then ([], true)
    else if (reconIter st env).2.iphone_done ∧ (reconIter st env).2.ipad_done
    then ((reconIter st env).1, true)
    else
      ((reconIter st env).1 ++ (reconRun (reconIter st env).2 rest).1,
        (reconRun (reconIter st env).2 rest).2)

/-- `keep_uxplay_windows_positioned` (lines 334-351): returns at once on
a non-darwin platform or when auto-positioning is disabled, otherwise
runs the loop from all-false flags. -/
def keep_uxplay_windows_positioned (isDarwin autoPosition : Bool)
    (envs : List ReconEnv) : List Source × Bool :=
  if ¬ isDarwin then ([], true)
  else if ¬ autoPosition then ([], true)
  else reconRun ⟨false, false⟩ envs

/-- The positioned flag of one source. -/
def ReconState.flag (st : ReconState) : Source → Bool
  | Source.iphone => st.iphone_done
  | Source.ipad => st.ipad_done

/-! ### Window locator (`macos_find_window_id`, main.py lines 189-227)

The CoreGraphics query `CGWindowListCopyWindowInfo` either fails (a null
array, modelled `none`) or yields a list of window-info dictionaries.
Each dictionary may lack the `kCGWindowName` entry (then
`_macos_cfstring_to_str` yields `""`) and may lack a readable
`kCGWindowNumber` (a null value or a failing `CFNumberGetValue`; both
make the code skip the entry, modelled `number = none`).  A null array
element (`if not info: continue`) behaves identically to an entry with
neither name nor number, so it is modelled as `⟨none, none⟩`. -/

structure CGWindowInfo where
  name : Option String
  number : Option ℤ
deriving Repr, DecidableEq

/-- Byte-level prefix test on character lists. -/
def charPrefix : List Char → List Char → Bool
  | [], _ => true
  | _ :: _, [] => false
  | a :: as, b :: bs => a == b && charPrefix as bs

/-- Whether `needle` occurs as a contiguous run inside `hay` (Python's
`needle in hay` on strings). -/
def charSub (needle : List Char) : List Char → Bool
  | [] => charPrefix needle []
  | c :: t => charPrefix needle (c :: t) || charSub needle t

/-- Python `needle in hay` for strings. -/
def strContains (hay needle : String) : Bool :=
  charSub needle.toList hay.toList

/-- Python `s.lower()`, modelled on the basic-latin letters that occur in
this program's window titles. -/
def strLower (s : String) : String := String.mk (s.data.map Char.toLower)

/-- The per-window test of lines 210-211, with the needle already
lowercased (`needle = (title_substring or "").lower()`, line 198): an
entry is *not* skipped when the needle is empty or occurs in the
lowercased window name (a missing name reads as `""`). -/
def titleMatches (needle : String) (w : CGWindowInfo) : Bool :=
  needle = "" || strContains (strLower (w.name.getD "")) needle

/-- The loop of lines 201-223 over the window-info list: return the
number of the first entry passing the title test that has a readable
number; entries failing either test are skipped. -/
def findLoop (needle : String) : List CGWindowInfo → Option ℤ
  | [] => none
  | w :: ws =>
    if titleMatches needle w then
      match w.number with
      | some n => some n
      | none => findLoop needle ws
    else findLoop needle ws

/-- `macos_find_window_id` (lines 189-227): `initOk` is the outcome of
`_macos_init_window_capture`, `query` the window list returned by
`CGWindowListCopyWindowInfo` (`none` = null).  The needle is the
lowercased title substring. -/
def macos_find_window_id (initOk : Bool) (title_substring : String)
    (query : Option (List CGWindowInfo)) : Option ℤ :=
  if ¬ initOk then none
  else
    match query with
    | none => none
    | some ws => findLoop (strLower title_substring) ws

/-! ### Window capture (`macos_capture_window_bgr`, main.py lines 230-281)

`CGWindowListCreateImage` either fails (null, modelled `none`) or yields
an image with width, height, bits-per-pixel, bytes-per-row (all
`size_t`, modelled `ℕ`) and a pixel buffer.  A null `data_ref` from
`CGDataProviderCopyData` and a null byte pointer are both modelled as
`data = none`; `length <= 0` as an empty buffer.  The numpy `reshape`
calls raise `ValueError` when sizes disagree; a raised exception is
modelled as `Except.error ()` (the callers of line 450 do not catch). -/

structure CGImage where
  width : ℕ
  height : ℕ
  bitsPerPixel : ℕ
  bytesPerRow : ℕ
  data : Option Bytes
deriving Repr, DecidableEq

/-- Split the first `h` rows of `r` bytes each off a flat buffer
(numpy's row-major view of a `(h, r)` array). -/
def takeRows (r : ℕ) : ℕ → Bytes → List Bytes
  | 0, _ => []
  | h + 1, l => l.take r :: takeRows r h (l.drop r)

/-- numpy `arr.reshape((h, r))` on a flat byte buffer: fails (raises)
unless the buffer holds exactly `h * r` bytes. -/
def np_reshape_rows (raw : Bytes) (h r : ℕ) : Option (List Bytes) :=
  if raw.length = h * r then some (takeRows r h raw) else none

/-- `cv2.cvtColor(arr, cv2.COLOR_BGRA2BGR)` on the flat buffer of a
`(h, w, 4)` array: keep B, G, R of each 4-byte pixel, drop A. -/
def bgraToBgr : Bytes → Bytes
  | b :: g :: r :: _ :: rest => b :: g :: r :: bgraToBgr rest
  | _ => []

/-- `macos_capture_window_bgr` (lines 230-281): `initOk` is the outcome
of `_macos_init_window_capture`, `getImage` the OS response to
`CGWindowListCreateImage` for a given window id. -/
def macos_capture_window_bgr (initOk : Bool) (getImage : ℤ → Option CGImage)
    (window_id : ℤ) : Except Unit (Option Frame) :=
  if ¬ initOk then .ok none
  else
    match getImage window_id with
    | none => .ok none
    | some img =>
      if img.width = 0 ∨ img.height = 0 then .ok none
      else if img.bitsPerPixel ≠ 32 then .ok none
      else
        match img.data with
        | none => .ok none
        | some raw =>
          if raw.length = 0 then .ok none
          else
            match np_reshape_rows raw img.height img.bytesPerRow with
            | none => .error ()
            | some rows =>
              let sliced := rows.map (List.take (img.width * 4))
              let flat := sliced.flatten
              if flat.length = img.height * img.width * 4 then
                .ok (some { height := img.height, width := img.width,
                            channels := 3, pixels := bgraToBgr flat })
              else .error ()

/-! ## Sample concrete inputs used by witnesses -/

def sampleFrame : Frame := ⟨1, 1, 3, [0, 0, 0]⟩

/-- A tick environment whose window capture fails and whose encoder
succeeds. -/
def sampleEnv : TickEnv :=
  { now := 1, lookup := none, capture := fun _ => none,
    regionFrame := sampleFrame, encode := fun f => some f.pixels }

/-- A tick environment whose encoder fails. -/
def sampleEnvNoEncode : TickEnv :=
  { now := 1, lookup := none, capture := fun _ => none,
    regionFrame := sampleFrame, encode := fun _ => none }

/-! ## Claims about the stream session -/

theorem streamTick_chunk_eq (hasTitle : Bool) (st : StreamState)
    (env : TickEnv) :
    (streamTick hasTitle st env).chunk =
      Option.map mjpegChunk (env.encode (acquiredFrame hasTitle st env)) := by
  unfold streamTick
  cases env.encode (acquiredFrame hasTitle st env) <;> rfl

/-- C1: every loop iteration encodes some acquired frame (acquisition
is total: the generator never raises there, given the region grab
succeeds), and whenever the window-capture path produced no frame, the
acquired frame is exactly the fallback region grab, unconditionally. -/
theorem c1_fallback_frame_always (hasTitle : Bool) (st : StreamState)
    (env : TickEnv) :
    (streamTick hasTitle st env).chunk =
      Option.map mjpegChunk (env.encode (acquiredFrame hasTitle st env)) ∧
    ((captureStep hasTitle (lookupStep hasTitle st env) env).1 = none →
      acquiredFrame hasTitle st env = env.regionFrame) := by
  refine ⟨streamTick_chunk_eq hasTitle st env, fun hnone => ?_⟩
  unfold acquiredFrame
  rw [hnone]
  rfl

theorem c1_fallback_frame_always_witness :
    (captureStep false (lookupStep false initStreamState sampleEnv)
        sampleEnv).1 = none ∧
    acquiredFrame false initStreamState sampleEnv = sampleEnv.regionFrame :=
  ⟨rfl, (c1_fallback_frame_always false initStreamState sampleEnv).2 rfl⟩

theorem streamTick_state_eq (hasTitle : Bool) (st : StreamState)
    (env : TickEnv) :
    (streamTick hasTitle st env).state =
      (captureStep hasTitle (lookupStep hasTitle st env) env).2 := by
  unfold streamTick
  cases env.encode (acquiredFrame hasTitle st env) <;> rfl

/-- C2: a cached window id that reaches the capture attempt of one
iteration is validated by that attempt: if the capture through it fails
the id is discarded (set back to unresolved) in the resulting state, and
if the capture succeeds the id stays cached. -/
theorem c2_handle_invalidated_once (st : StreamState) (env : TickEnv)
    (h : ℤ) (hid : (lookupStep true st env).window_id = some h) :
    (env.capture h = none →
      (streamTick true st env).state.window_id = none) ∧
    (∀ f, env.capture h = some f →
      (streamTick true st env).state.window_id = some h) := by
  constructor
  · intro hc
    rw [streamTick_state_eq]
    simp [captureStep, hid, hc]
  · intro f hc
    rw [streamTick_state_eq]
    simp [captureStep, hid, hc]

theorem c2_handle_invalidated_once_witness :
    (lookupStep true ⟨some 5, 0⟩ sampleEnv).window_id = some 5 ∧
    sampleEnv.capture 5 = none ∧
    (streamTick true ⟨some 5, 0⟩ sampleEnv).state.window_id = none :=
  ⟨rfl, rfl, (c2_handle_invalidated_once ⟨some 5, 0⟩ sampleEnv 5 rfl).1 rfl⟩

/-- C4 counterexample: with elapsed encoding time `1/48` s, the sleep the
code issues (the constant `frame_delay = 1/24`) differs from the spec's
`max(0, frameInterval - elapsedEncodingTime) = 1/48`. -/
theorem c4_pacing_counterexample :
    tickSleep (1 / 48) ≠ specSleep (1 / 48) := by
  unfold tickSleep specSleep frame_delay TARGET_FPS
  norm_num

/-- C4 amended: between successive emitted chunks the session sleeps the
constant `frameInterval = 1/targetFps = 1/24`, regardless of elapsed
encoding time (nothing is subtracted); an iteration that skipped its
chunk does not sleep at all. -/
theorem c4_pacing_constant_sleep (hasTitle : Bool) (st : StreamState)
    (env : TickEnv) (e : ℚ) :
    tickSleep e = frame_delay ∧
    frame_delay = 1 / 24 ∧
    (streamTick hasTitle st env).sleep =
      (if ((streamTick hasTitle st env).chunk).isSome then frame_delay
       else 0) := by
  refine ⟨rfl, by unfold frame_delay TARGET_FPS; norm_num, ?_⟩
  unfold streamTick
  cases env.encode (acquiredFrame hasTitle st env) <;> rfl

/-- C5: when the encoder fails on the acquired frame, the iteration
yields no chunk (and the loop goes on: the tick still has a well-defined
next state); every chunk that is yielded is the complete framing of a
successfully encoded buffer, never a partial one. -/
theorem c5_encode_failure_skips_tick (hasTitle : Bool) (st : StreamState)
    (env : TickEnv) :
    (env.encode (acquiredFrame hasTitle st env) = none →
      (streamTick hasTitle st env).chunk = none) ∧
    (∀ c, (streamTick hasTitle st env).chunk = some c →
      ∃ data, env.encode (acquiredFrame hasTitle st env) = some data ∧
        c = mjpegChunk data) := by
  have hq := streamTick_chunk_eq hasTitle st env
  constructor
  · intro hnone
    rw [hq, hnone]
    rfl
  · intro c hc
    rw [hq] at hc
    cases henc : env.encode (acquiredFrame hasTitle st env) with
    | none => rw [henc] at hc; exact absurd hc (by simp)
    | some data =>
        refine ⟨data, rfl, ?_⟩
        rw [henc] at hc
        simpa using hc.symm

theorem c5_encode_failure_skips_tick_witness :
    sampleEnvNoEncode.encode
        (acquiredFrame false initStreamState sampleEnvNoEncode) = none ∧
    (streamTick false initStreamState sampleEnvNoEncode).chunk = none :=
  ⟨rfl,
    (c5_encode_failure_skips_tick false initStreamState sampleEnvNoEncode).1
      rfl⟩

theorem mjpegChunk_parts (data : Bytes) :
    mjpegChunk data =
      asciiBytes ("--" ++ boundaryToken ++ "\x0d\x0a") ++
        asciiBytes "Content-Type: image/jpeg\x0d\x0a\x0d\x0a" ++ data ++
        asciiBytes "\x0d\x0a" := by
  unfold mjpegChunk
  have h1 : asciiBytes "--frame\x0d\x0a" =
      asciiBytes ("--" ++ boundaryToken ++ "\x0d\x0a") := by decide
  rw [h1]

/-- C8: every yielded chunk is a full multipart part — the boundary line
built from the boundary token, the `Content-Type: image/jpeg` header, the
encoded bytes and a trailing CRLF — and the HTTP response declares
`multipart/x-mixed-replace` with that same boundary token. -/
theorem c8_multipart_framing (hasTitle : Bool) (st : StreamState)
    (env : TickEnv) (c : Bytes)
    (hc : (streamTick hasTitle st env).chunk = some c) :
    (∃ data,
      c = asciiBytes ("--" ++ boundaryToken ++ "\x0d\x0a") ++
        asciiBytes "Content-Type: image/jpeg\x0d\x0a\x0d\x0a" ++ data ++
        asciiBytes "\x0d\x0a") ∧
    streamMimetype = "multipart/x-mixed-replace; boundary=" ++ boundaryToken := by
  constructor
  · have hq := streamTick_chunk_eq hasTitle st env
    rw [hq] at hc
    cases henc : env.encode (acquiredFrame hasTitle st env) with
    | none => rw [henc] at hc; exact absurd hc (by simp)
    | some data =>
        rw [henc] at hc
        refine ⟨data, ?_⟩
        have hcd : c = mjpegChunk data := by simpa using hc.symm
        rw [hcd, mjpegChunk_parts]
  · decide

theorem c8_multipart_framing_witness :
    (streamTick false initStreamState sampleEnv).chunk =
      some (mjpegChunk [0, 0, 0]) ∧
    streamMimetype = "multipart/x-mixed-replace; boundary=" ++ boundaryToken :=
  ⟨rfl,
    (c8_multipart_framing false initStreamState sampleEnv
      (mjpegChunk [0, 0, 0]) rfl).2⟩

/-! ## Claims about the window reconciler -/

theorem reconIter_flag_mono (s : Source) (st : ReconState) (e : ReconEnv)
    (h : st.flag s = true) :
    s ∉ (reconIter st e).1 ∧ (reconIter st e).2.flag s = true := by
  cases s <;> cases hi : st.iphone_done <;> cases hp : st.ipad_done <;>
    simp_all [reconIter, ReconState.flag]

/-- C6: once a source's positioned flag is true, no iteration of the
reconciliation loop ever issues another move attempt for that source,
for the whole remainder of the run. -/
theorem c6_positioned_never_moved_again (s : Source) (st : ReconState)
    (envs : List ReconEnv) (hdone : st.flag s = true) :
    s ∉ (reconRun st envs).1 := by
  induction envs generalizing st with
  | nil => simp [reconRun]
  | cons e rest ih =>
      have hmono := reconIter_flag_mono s st e hdone
      unfold reconRun
      by_cases hstop : e.stopSet = true
      · simp [hstop]
      · by_cases hdone2 : (reconIter st e).2.iphone_done = true ∧
            (reconIter st e).2.ipad_done = true
        · simp only [hstop, Bool.false_eq_true, if_false, hdone2, if_true]
          exact hmono.1
        · simp only [hstop, Bool.false_eq_true, if_false, hdone2, if_false]
          intro hmem
          rcases List.mem_append.mp hmem with h1 | h2
          · exact hmono.1 h1
          · exact ih (reconIter st e).2 hmono.2 h2

theorem c6_positioned_never_moved_again_witness :
    (⟨true, false⟩ : ReconState).flag Source.iphone = true ∧
    Source.iphone ∉
      (reconRun ⟨true, false⟩
        [⟨false, false, false⟩, ⟨false, false, false⟩]).1 :=
  ⟨rfl,
    c6_positioned_never_moved_again Source.iphone ⟨true, false⟩
      [⟨false, false, false⟩, ⟨false, false, false⟩] rfl⟩

/-- C9: the reconciliation loop (a) returns immediately, issuing no move
attempts, when auto-positioning is disabled; (b) exits at the first
iteration that observes the shutdown signal, issuing no further moves;
and (c) returns as soon as the iteration's attempts leave every source's
positioned flag true. -/
theorem c9_reconciler_termination :
    (∀ envs, keep_uxplay_windows_positioned true false envs = ([], true)) ∧
    (∀ (st : ReconState) (e : ReconEnv) (es : List ReconEnv),
      e.stopSet = true → reconRun st (e :: es) = ([], true)) ∧
    (∀ (st : ReconState) (e : ReconEnv) (es : List ReconEnv),
      e.stopSet = false →
      (reconIter st e).2.iphone_done = true →
      (reconIter st e).2.ipad_done = true →
      reconRun st (e :: es) = ((reconIter st e).1, true)) := by
  refine ⟨fun envs => rfl, fun st e es hstop => ?_, fun st e es hstop h1 h2 => ?_⟩
  · unfold reconRun
    simp [hstop]
  · unfold reconRun
    simp [hstop, h1, h2]

theorem c9_reconciler_termination_witness :
    keep_uxplay_windows_positioned true false [⟨false, true, true⟩] =
      ([], true) ∧
    reconRun ⟨false, false⟩ [⟨true, false, false⟩] = ([], true) ∧
    reconRun ⟨false, false⟩ [⟨false, true, true⟩] =
      ([Source.iphone, Source.ipad], true) :=
  ⟨c9_reconciler_termination.1 [⟨false, true, true⟩],
    c9_reconciler_termination.2.1 ⟨false, false⟩ ⟨true, false, false⟩ [] rfl,
    c9_reconciler_termination.2.2 ⟨false, false⟩ ⟨false, true, true⟩ [] rfl
      rfl rfl⟩

/-! ## Claims about the window locator -/

theorem findLoop_eq_find (needle : String) (ws : List CGWindowInfo)
    (hwf : ∀ w ∈ ws, titleMatches needle w = true → w.number.isSome = true) :
    findLoop needle ws =
      (ws.find? (titleMatches needle)).bind CGWindowInfo.number := by
  induction ws with
  | nil => rfl
  | cons w rest ih =>
      by_cases hm : titleMatches needle w = true
      · have hnum := hwf w (List.mem_cons_self w rest) hm
        cases hn : w.number with
        | none => rw [hn] at hnum; simp at hnum
        | some n => simp [findLoop, List.find?_cons, hm, hn]
      · have ih' := ih fun w hw hmW => hwf w (List.mem_cons_of_mem _ hw) hmW
        simp [findLoop, List.find?_cons, hm, ih']

/-- C7: the locator returns `None` when the library initialisation or the
OS window-registry query fails (never raising), returns `None` when no
enumerated window passes the case-insensitive title test, and otherwise
returns the window number of the first window, in enumeration order,
whose title contains the (lowercased) substring — provided each matching
window carries a readable window number. -/
theorem c7_locator_first_match (initOk : Bool) (t : String)
    (q : Option (List CGWindowInfo)) (ws : List CGWindowInfo)
    (hwf : ∀ w ∈ ws, titleMatches (strLower t) w = true →
      w.number.isSome = true) :
    macos_find_window_id initOk t none = none ∧
    macos_find_window_id false t q = none ∧
    (ws.find? (titleMatches (strLower t)) = none →
      macos_find_window_id true t (some ws) = none) ∧
    macos_find_window_id true t (some ws) =
      (ws.find? (titleMatches (strLower t))).bind CGWindowInfo.number := by
  refine ⟨by cases initOk <;> rfl, by cases q <;> rfl, fun hnone => ?_, ?_⟩
  · show findLoop (strLower t) ws = none
    rw [findLoop_eq_find (strLower t) ws hwf, hnone]
    rfl
  · show findLoop (strLower t) ws = _
    exact findLoop_eq_find (strLower t) ws hwf

theorem c7_locator_first_match_witness :
    macos_find_window_id true "Reflector-iPhone"
        (some [⟨some "Other window", some 3⟩,
               ⟨some "The reflector-iphone app", some 7⟩,
               ⟨some "reflector-iphone too", some 9⟩]) = some 7 := by
  have h := c7_locator_first_match true "Reflector-iPhone"
    (some [⟨some "Other window", some 3⟩,
           ⟨some "The reflector-iphone app", some 7⟩,
           ⟨some "reflector-iphone too", some 9⟩])
    [⟨some "Other window", some 3⟩,
     ⟨some "The reflector-iphone app", some 7⟩,
     ⟨some "reflector-iphone too", some 9⟩]
    (by decide)
  rw [h.2.2.2]
  decide

/-! ## Claims about window capture -/

theorem bgraToBgr_length :
    ∀ l : Bytes, (bgraToBgr l).length = 3 * (l.length / 4)
  | [] => by simp [bgraToBgr]
  | [_] => by simp [bgraToBgr]
  | [_, _] => by simp [bgraToBgr]
  | [_, _, _] => by simp [bgraToBgr]
  | _ :: _ :: _ :: _ :: rest => by
      have ih := bgraToBgr_length rest
      simp only [bgraToBgr, List.length_cons, ih]
      omega

theorem takeRows_sliced_length (c r : ℕ) :
    ∀ (h : ℕ) (raw : Bytes), raw.length = h * r →
      (((takeRows r h raw).map (List.take c)).flatten).length = h * min c r
  | 0, raw, _ => by simp [takeRows]
  | h + 1, raw, hlen => by
      have hdrop : (raw.drop r).length = h * r := by
        rw [List.length_drop, hlen]
        ring_nf
        omega
      have ih := takeRows_sliced_length c r h (raw.drop r) hdrop
      simp only [takeRows, List.map_cons, List.flatten_cons,
        List.length_append, ih, List.length_take, hlen]
      have hrm : min r ((h + 1) * r) = r :=
        Nat.min_eq_left (Nat.le_mul_of_pos_left r (Nat.succ_pos h))
      rw [Nat.min_comm c (min r ((h + 1) * r)), hrm, Nat.min_comm r c]
      ring

/-- C10: the window capture is total at its interface: it returns `None`
(raising nothing) when the CoreGraphics library is unavailable, when the
OS returns no image, when the image has zero width or height, when its
pixel format is not 32 bits per pixel, or when its pixel data is missing
or empty; and in the remaining case — a well-laid-out 32-bit image, whose
buffer holds `height * bytesPerRow` bytes with `width * 4 ≤ bytesPerRow`
as CoreGraphics produces — it returns a 3-channel frame of the image's
dimensions. -/
theorem c10_capture_total (initOk : Bool) (getImage : ℤ → Option CGImage)
    (wid : ℤ) (img : CGImage) :
    (getImage wid = none →
      macos_capture_window_bgr initOk getImage wid = .ok none) ∧
    (getImage wid = some img →
      ((img.width = 0 ∨ img.height = 0) →
        macos_capture_window_bgr initOk getImage wid = .ok none) ∧
      (img.bitsPerPixel ≠ 32 →
        macos_capture_window_bgr initOk getImage wid = .ok none) ∧
      (img.data = none →
        macos_capture_window_bgr initOk getImage wid = .ok none) ∧
      (img.data = some [] →
        macos_capture_window_bgr initOk getImage wid = .ok none) ∧
      (∀ raw, initOk = true → img.data = some raw →
        img.width ≠ 0 → img.height ≠ 0 → img.bitsPerPixel = 32 →
        raw ≠ [] → raw.length = img.height * img.bytesPerRow →
        img.width * 4 ≤ img.bytesPerRow →
        ∃ f, macos_capture_window_bgr initOk getImage wid = .ok (some f) ∧
          f.channels = 3 ∧ f.height = img.height ∧ f.width = img.width ∧
          f.pixels.length = img.height * img.width * 3)) := by
  constructor
  · intro h
    cases initOk <;> simp [macos_capture_window_bgr, h]
  · intro h
    refine ⟨fun hwh => ?_, fun hbpp => ?_, fun hdata => ?_, fun hdata => ?_,
      fun raw hio hdata hw hh hbpp hraw hlen hbpr => ?_⟩
    · cases initOk <;> simp [macos_capture_window_bgr, h, hwh]
    · cases initOk <;> simp [macos_capture_window_bgr, h, hbpp]
    · cases initOk <;> simp [macos_capture_window_bgr, h, hdata]
    · cases initOk <;> simp [macos_capture_window_bgr, h, hdata]
    · subst hio
      have hflat :
          (((takeRows img.bytesPerRow img.height raw).map
            (List.take (img.width * 4))).flatten).length =
            img.height * img.width * 4 := by
        rw [takeRows_sliced_length (img.width * 4) img.bytesPerRow
          img.height raw hlen, Nat.min_eq_left hbpr, Nat.mul_assoc]
      have hlen0 : ¬ raw.length = 0 := by
        simpa using hraw
      have hbpr0 : ¬ img.bytesPerRow = 0 := by
        intro hz
        rw [hz] at hbpr
        omega
      refine ⟨⟨img.height, img.width, 3,
        bgraToBgr (((takeRows img.bytesPerRow img.height raw).map
          (List.take (img.width * 4))).flatten)⟩, ?_, rfl, rfl, rfl, ?_⟩
      · simp [macos_capture_window_bgr, h, hw, hh, hbpp, hdata, hlen0,
          hbpr0, np_reshape_rows, hlen, hflat]
      · show (bgraToBgr _).length = _
        rw [bgraToBgr_length, hflat, Nat.mul_div_cancel _ (by norm_num)]
        ring

/-- A well-laid-out 1×1 32-bit sample image. -/
def sampleImage : CGImage := ⟨1, 1, 32, 4, some [9, 8, 7, 6]⟩

theorem c10_capture_total_witness :
    sampleImage.data = some [9, 8, 7, 6] ∧
    ∃ f, macos_capture_window_bgr true (fun _ => some sampleImage) 0 =
        .ok (some f) ∧ f.channels = 3 ∧ f.height = sampleImage.height ∧
        f.width = sampleImage.width ∧
        f.pixels.length = sampleImage.height * sampleImage.width * 3 :=
  ⟨rfl,
    ((c10_capture_total true (fun _ => some sampleImage) 0
        sampleImage).2 rfl).2.2.2.2 [9, 8, 7, 6] rfl rfl (by decide)
      (by decide) rfl (by decide) (by decide) (by decide)⟩

/-! ## The lookup throttle (C3) -/

theorem lookupStep_fires_eq (hasTitle : Bool) (st : StreamState)
    (env : TickEnv) (h : lookupFires hasTitle st env) :
    lookupStep hasTitle st env = ⟨env.lookup, env.now⟩ := by
  unfold lookupFires at h
  unfold lookupStep
  rw [if_pos h]

theorem lookupStep_fires_last (hasTitle : Bool) (st : StreamState)
    (env : TickEnv) (h : lookupFires hasTitle st env) :
    (lookupStep hasTitle st env).last_window_lookup = env.now := by
  rw [lookupStep_fires_eq hasTitle st env h]

theorem lookupStep_not_fires (hasTitle : Bool) (st : StreamState)
    (env : TickEnv) (h : ¬ lookupFires hasTitle st env) :
    lookupStep hasTitle st env = st := by
  unfold lookupFires at h
  unfold lookupStep
  rw [if_neg h]

theorem captureStep_last (hasTitle : Bool) (st : StreamState)
    (env : TickEnv) :
    (captureStep hasTitle st env).2.last_window_lookup =
      st.last_window_lookup := by
  unfold captureStep
  cases hasTitle with
  | false => rfl
  | true =>
      cases hid : st.window_id with
      | none => simp
      | some wid => cases hc : env.capture wid <;> simp [hc]

theorem streamTick_last (hasTitle : Bool) (st : StreamState)
    (env : TickEnv) :
    (streamTick hasTitle st env).state.last_window_lookup =
      (lookupStep hasTitle st env).last_window_lookup := by
  rw [streamTick_state_eq, captureStep_last]

/-- Along any monotone-time trace, once a lookup fires at step `i`, every
later state's `last_window_lookup` is at least the time of step `i`. -/
theorem lookup_lower_bound (hasTitle : Bool) (env : ℕ → TickEnv)
    (hmono : ∀ i j, i ≤ j → (env i).now ≤ (env j).now) (i : ℕ)
    (hfire : lookupFires hasTitle (stateAt hasTitle env i) (env i)) :
    ∀ k, i < k →
      (env i).now ≤ (stateAt hasTitle env k).last_window_lookup := by
  intro k
  induction k with
  | zero => omega
  | succ k ih =>
      intro hik
      show (env i).now ≤
        (streamTick hasTitle (stateAt hasTitle env k) (env k)).state.last_window_lookup
      rw [streamTick_last]
      rcases Nat.lt_succ_iff_lt_or_eq.mp hik with hik' | hik'
      · have hk := ih hik'
        by_cases hf : lookupFires hasTitle (stateAt hasTitle env k) (env k)
        · rw [lookupStep_fires_last hasTitle _ _ hf]
          exact hmono i k (Nat.le_of_lt hik')
        · rw [lookupStep_not_fires hasTitle _ _ hf]
          exact hk
      · subst hik'
        rw [lookupStep_fires_last hasTitle _ _ hfire]

/-- C3: within one session (environments indexed by loop iteration, with
non-decreasing wall-clock times), a window lookup is issued at an
iteration only when the guard of main.py line 445 holds — no cached
handle and at least 0.8 s since the last lookup attempt — and as a
consequence any two iterations at which lookups are issued are at least
`lookupInterval = 0.8` s apart. -/
theorem c3_lookup_throttle (hasTitle : Bool) (env : ℕ → TickEnv)
    (hmono : ∀ i j, i ≤ j → (env i).now ≤ (env j).now) (i j : ℕ)
    (hij : i < j)
    (hi : lookupFires hasTitle (stateAt hasTitle env i) (env i))
    (hj : lookupFires hasTitle (stateAt hasTitle env j) (env j)) :
    lookupInterval ≤ (env j).now - (env i).now := by
  have hlb := lookup_lower_bound hasTitle env hmono i hi j hij
  have hguard := hj.2.2
  linarith

/-- Environments for the throttle witness: time `n + 1` at iteration
`n`, failing lookups and captures. -/
def c3Env : ℕ → TickEnv := fun n =>
  { now := (n : ℚ) + 1, lookup := none, capture := fun _ => none,
    regionFrame := sampleFrame, encode := fun _ => none }

theorem c3_lookup_throttle_witness :
    lookupFires true (stateAt true c3Env 0) (c3Env 0) ∧
    lookupFires true (stateAt true c3Env 1) (c3Env 1) ∧
    lookupInterval ≤ (c3Env 1).now - (c3Env 0).now := by
  have hmono : ∀ i j, i ≤ j → (c3Env i).now ≤ (c3Env j).now := by
    intro i j h
    show (i : ℚ) + 1 ≤ (j : ℚ) + 1
    have : (i : ℚ) ≤ (j : ℚ) := by exact_mod_cast h
    linarith
  have fire0 : lookupFires true (stateAt true c3Env 0) (c3Env 0) :=
    ⟨rfl, rfl, by norm_num [c3Env, stateAt, initStreamState, lookupInterval]⟩
  have h1 : stateAt true c3Env 1 = ⟨none, (c3Env 0).now⟩ := by
    show (streamTick true (stateAt true c3Env 0) (c3Env 0)).state = _
    rw [streamTick_state_eq, lookupStep_fires_eq true _ _ fire0]
    rfl
  have fire1 : lookupFires true (stateAt true c3Env 1) (c3Env 1) := by
    rw [h1]
    exact ⟨rfl, rfl, by norm_num [c3Env, lookupInterval]⟩
  exact ⟨fire0, fire1,
    c3_lookup_throttle true c3Env hmono 0 1 (by norm_num) fire0 fire1⟩

end DualScreenMirror
